import Mathlib

/-!
Shallow embedding of `newyork_times_covid19_data_processing.py`
(COVID-19 county data pipeline: clean, join, per-county statistics).

Dates are modelled as natural numbers preserving calendar order
(an ISO date YYYY-MM-DD is encoded as the number YYYYMMDD, which is
monotone in the calendar order for valid dates).  Integer columns are
modelled as `Int`; the `POPESTIMATE2019` column of the joined frame is
`Option Int` because a left join fills unmatched keys with a missing
marker (pandas NaN).
-/

deriving instance DecidableEq for Except

namespace NYT

/-- A cleaned NYT COVID-19 row (output schema of `preprocess_covid19_df`):
columns `fips`, `date`, `cases`, `deaths`. -/
structure CaseRecord where
  fips : String
  date : Nat
  cases : Int
  deaths : Int
deriving DecidableEq, Repr

/-- A cleaned population row (output schema of `preprocess_population_df`):
columns `fips`, `POPESTIMATE2019`. -/
structure PopulationRecord where
  fips : String
  popestimate2019 : Int
deriving DecidableEq, Repr

/-- A row of the joined frame produced by `combine_data`:
columns `fips`, `date`, `cases`, `deaths`, `POPESTIMATE2019` (missing when
the left join found no population row for the fips). -/
structure CombinedRecord where
  fips : String
  date : Nat
  cases : Int
  deaths : Int
  popestimate2019 : Option Int
deriving DecidableEq, Repr

/-- A row of the statistics output of `calculate_stats_by_county` /
`calculate_stats`; `fips` and `date` are the row's (index) keys. -/
structure StatRecord where
  fips : String
  date : Nat
  population : Option Int
  daily_cases : Int
  daily_deaths : Int
  cumulative_cases_to_date : Int
  cumulative_deaths_to_date : Int
deriving DecidableEq, Repr

/-- Default row used with `List.getD` when stating indexed properties. -/
def dummyStat : StatRecord :=
  { fips := "", date := 0, population := none, daily_cases := 0,
    daily_deaths := 0, cumulative_cases_to_date := 0,
    cumulative_deaths_to_date := 0 }

/-- Projection of a joined row back to its case-side fields
(used to state that the left join preserves the case side). -/
def toCaseRecord (r : CombinedRecord) : CaseRecord :=
  { fips := r.fips, date := r.date, cases := r.cases, deaths := r.deaths }

/-- `df_covid.merge(df_population, on="fips", how="left")` followed by the
column selection of `combine_data` (source lines 165-169): every case row
is emitted once per matching population row, and once with a missing
`POPESTIMATE2019` when there is no match. -/
def combine_data (df_covid : List CaseRecord)
    (df_population : List PopulationRecord) : List CombinedRecord :=
  df_covid.flatMap (fun c =>
    let ms := (df_population.filter
        (fun p => decide (p.fips = c.fips))).map (fun p => p.popestimate2019)
    if ms.isEmpty then
      [{ fips := c.fips, date := c.date, cases := c.cases,
         deaths := c.deaths, popestimate2019 := none }]
    else
      ms.map (fun m =>
        { fips := c.fips, date := c.date, cases := c.cases,
          deaths := c.deaths, popestimate2019 := some m }))

/-- The sort key of `df_county.sort_values(by="date")` (source line 208). -/
def dateLE (a b : CombinedRecord) : Prop := a.date ≤ b.date

instance : DecidableRel dateLE := fun a b => Nat.decLe a.date b.date

instance : IsTotal CombinedRecord dateLE := ⟨fun a b => Nat.le_total a.date b.date⟩

instance : IsTrans CombinedRecord dateLE := ⟨fun _ _ _ h h' => Nat.le_trans h h'⟩

/-- `df_county.sort_values(by="date")`: sort the county's rows by date
ascending.  The tie-break for equal dates is unspecified in the source
(pandas quicksort); we fix a deterministic sort. -/
def sortByDate (rows : List CombinedRecord) : List CombinedRecord :=
  rows.insertionSort dateLE

/-- `series.shift(fill_value=0)` on an integer column: shift down by one,
filling the first slot with 0 (source lines 217-218, 221-222). -/
def shiftFillZero (xs : List Int) : List Int := 0 :: xs.dropLast

/-- One output row of `calculate_stats_by_county`, given the row's joined
record and the previous row's cumulative cases/deaths (`prevC`, `prevD`):
daily counts are the differences with the shifted column, the cumulative
columns are the renamed `cases`/`deaths`, and
`population = POPESTIMATE2019 - cumulative_deaths_to_date` (missing
propagates, source lines 229-230). -/
def mkStat (r : CombinedRecord) (prevC prevD : Int) : StatRecord :=
  { fips := r.fips, date := r.date,
    population := r.popestimate2019.map (fun p => p - r.deaths),
    daily_cases := r.cases - prevC,
    daily_deaths := r.deaths - prevD,
    cumulative_cases_to_date := r.cases,
    cumulative_deaths_to_date := r.deaths }

/-- Row-aligned recombination of the sorted rows with the two difference
columns produced by the shift pattern. -/
def zipRows : List CombinedRecord → List Int → List Int → List StatRecord
  | r :: rs, dc :: dcs, dd :: dds =>
    { fips := r.fips, date := r.date,
      population := r.popestimate2019.map (fun p => p - r.deaths),
      daily_cases := dc, daily_deaths := dd,
      cumulative_cases_to_date := r.cases,
      cumulative_deaths_to_date := r.deaths } :: zipRows rs dcs dds
  | _, _, _ => []

/-- `calculate_stats_by_county` (source lines 174-239): sort by date,
compute `daily_cases = cases - cases.shift(fill_value=0)` and likewise
for deaths, rename the cumulative columns, and compute
`population = POPESTIMATE2019 - cumulative_deaths_to_date`. -/
def calculate_stats_by_county (df_county : List CombinedRecord) : List StatRecord :=
  let s := sortByDate df_county
  let cs := s.map (fun r => r.cases)
  let ds := s.map (fun r => r.deaths)
  zipRows s (List.zipWith (fun a b => a - b) cs (shiftFillZero cs))
    (List.zipWith (fun a b => a - b) ds (shiftFillZero ds))

/-- Reference recursion for the engine: carry the previous cumulative
values through the sorted list (equal to the shift pattern, see
`calculate_stats_by_county_eq_statsAux`). -/
def statsAux (prevC prevD : Int) : List CombinedRecord → List StatRecord
  | [] => []
  | r :: rs => mkStat r prevC prevD :: statsAux r.cases r.deaths rs

/-- `df_combined.groupby("fips").apply(calculate_stats_by_county)`
(source lines 270-276): pandas groups by the distinct fips keys in
ascending order (groupby sorts keys by default), runs the engine on each
group (rows of that fips, in their original relative order), and
concatenates the results. -/
def calculate_stats (df_combined : List CombinedRecord) : List StatRecord :=
  (((df_combined.map (fun r => r.fips)).dedup).insertionSort
      (fun a b : String => a ≤ b)).flatMap
    (fun k => calculate_stats_by_county
      (df_combined.filter (fun r => decide (r.fips = k))))

/-! ### Frame-level model of the two cleaners

`preprocess_covid19_df` and `preprocess_population_df` operate on raw
pandas frames whose column set matters (accessing an absent column raises
a KeyError) and one of whose operations (`df_population["fips"] = ...`,
source line 121) writes a column into the caller's frame in place.  We
model a frame as a column-name list plus rows of (column, cell) pairs,
and each cleaner as `frame → Except error (caller-visible frame after
the call × returned frame)`: every pandas operation used is translated
as either a copy (select, dropna, astype, merge, sort_values) or an
in-place write (column assignment), following the source line by line. -/

/-- A cell of a raw frame: missing (NaN/NaT), a string, an integer, or a
parsed date (encoded as in the record model). -/
inductive Cell where
  | na : Cell
  | str : String → Cell
  | int : Int → Cell
  | date : Nat → Cell
deriving DecidableEq, Repr

/-- A raw tabular frame: the list of column names and the rows, each row
an association list from column name to cell. -/
structure RawFrame where
  cols : List String
  rows : List (List (String × Cell))
deriving DecidableEq, Repr

/-- Read one cell of a row by column name (missing key reads as NaN). -/
def getCellRow : List (String × Cell) → String → Cell
  | [], _ => Cell.na
  | (k, v) :: r, c => if k = c then v else getCellRow r c

/-- Overwrite the cell of an existing column in a row. -/
def setCellRow (r : List (String × Cell)) (c : String) (v : Cell) :
    List (String × Cell) :=
  r.map (fun kv => if kv.1 = c then (c, v) else kv)

/-- Whether a cell is the missing marker. -/
def cellIsNA : Cell → Bool
  | Cell.na => true
  | _ => false

/-- Strip leading and trailing whitespace (model of `str.strip`, stated
over the character list so that it evaluates by kernel reduction). -/
def strTrim (s : String) : String :=
  ⟨((s.data.dropWhile Char.isWhitespace).reverse.dropWhile
      Char.isWhitespace).reverse⟩

/-- Decimal digits accumulator for the numeric-string model. -/
def strToNatAux : List Char → Nat → Option Nat
  | [], acc => some acc
  | c :: cs, acc =>
    if c.isDigit then strToNatAux cs (acc * 10 + (c.toNat - 48)) else none

/-- Parse an optionally signed decimal integer (model of the string→int
coercion used by `astype(int)`); `none` on any non-numeric text. -/
def strToInt? (s : String) : Option Int :=
  match s.data with
  | [] => none
  | '-' :: rest =>
    match rest with
    | [] => none
    | _ => Option.map (fun n => -(Int.ofNat n)) (strToNatAux rest 0)
  | l => Option.map Int.ofNat (strToNatAux l 0)

/-- Split a character list on the dash separator (model of
`splitOn "-"` for the ISO date parser). -/
def splitOnDash : List Char → List (List Char)
  | [] => [[]]
  | c :: cs =>
    if c = '-' then [] :: splitOnDash cs
    else
      match splitOnDash cs with
      | [] => [[c]]
      | g :: gs => (c :: g) :: gs

/-- Parse a nonempty all-digit chunk. -/
def chunkToNat? (l : List Char) : Option Nat :=
  match l with
  | [] => none
  | _ => strToNatAux l 0

/-- `df[names]` column selection: KeyError when a requested column is
absent, otherwise a new frame with exactly those columns. -/
def selectCols (f : RawFrame) (names : List String) : Except String RawFrame :=
  if (∀ n ∈ names, n ∈ f.cols) then
    Except.ok ⟨names, f.rows.map (fun r => names.map (fun c => (c, getCellRow r c)))⟩
  else Except.error "KeyError"

instance (f : RawFrame) (names : List String) :
    Decidable (∀ n ∈ names, n ∈ f.cols) := List.decidableBAll _ names

/-- `df.dropna(subset=names)`: keep the rows with no missing value in the
given columns (a new frame). -/
def dropnaSubset (f : RawFrame) (names : List String) : RawFrame :=
  ⟨f.cols, f.rows.filter (fun r => names.all (fun c => !(cellIsNA (getCellRow r c))))⟩

/-- Apply a fallible per-row function to every row, aborting the run on
the first failure (the pipeline's fatal coercion-failure policy). -/
def mapME : List (List (String × Cell)) →
    (List (String × Cell) → Except String (List (String × Cell))) →
    Except String (List (List (String × Cell)))
  | [], _ => Except.ok []
  | r :: rs, g =>
    match g r with
    | Except.error e => Except.error e
    | Except.ok r' =>
      match mapME rs g with
      | Except.error e => Except.error e
      | Except.ok rs' => Except.ok (r' :: rs')

/-- `astype(int)` on one cell: integers pass through, numeric strings are
parsed, anything else is a fatal coercion failure (a datetime cell would
convert to its numeric encoding). -/
def cellToInt : Cell → Except String Cell
  | Cell.int n => Except.ok (Cell.int n)
  | Cell.str s =>
    match strToInt? s with
    | some n => Except.ok (Cell.int n)
    | none => Except.error "ValueError"
  | Cell.date d => Except.ok (Cell.int (Int.ofNat d))
  | Cell.na => Except.error "ValueError"

/-- Model of `pd.to_datetime` on an ISO `YYYY-MM-DD` string: the encoded
date number, or a parse failure. -/
def parseDate (s : String) : Option Nat :=
  match splitOnDash s.data with
  | [y, m, d] =>
    match chunkToNat? y, chunkToNat? m, chunkToNat? d with
    | some yn, some mn, some dn =>
      if 1 ≤ mn ∧ mn ≤ 12 ∧ 1 ≤ dn ∧ dn ≤ 31 then
        some (yn * 10000 + mn * 100 + dn)
      else none
    | _, _, _ => none
  | _ => none

/-- `astype("datetime64[ns]")` on one cell: dates pass through, strings
are parsed, NaN becomes NaT (stays missing), an integer is reinterpreted
as a date encoding. -/
def cellToDate : Cell → Except String Cell
  | Cell.date d => Except.ok (Cell.date d)
  | Cell.str s =>
    match parseDate s with
    | some d => Except.ok (Cell.date d)
    | none => Except.error "ValueError"
  | Cell.int n => Except.ok (Cell.date n.toNat)
  | Cell.na => Except.ok Cell.na

/-- `df.astype(dtype={c: ...})` restricted to one column: KeyError when
the column is absent, otherwise coerce that cell of every row (a new
frame); a coercion failure is fatal. -/
def astypeCol (f : RawFrame) (c : String) (coe : Cell → Except String Cell) :
    Except String RawFrame :=
  if c ∈ f.cols then
    match mapME f.rows (fun r =>
        match coe (getCellRow r c) with
        | Except.error e => Except.error e
        | Except.ok v => Except.ok (setCellRow r c v)) with
    | Except.error e => Except.error e
    | Except.ok rows' => Except.ok ⟨f.cols, rows'⟩
  else Except.error "KeyError"

/-- Read a whole column (`df[c]`): KeyError when absent. -/
def getColCells (f : RawFrame) (c : String) : Except String (List Cell) :=
  if c ∈ f.cols then Except.ok (f.rows.map (fun r => getCellRow r c))
  else Except.error "KeyError"

/-- `df[c] = vals`: in-place column write — overwrite the column when it
exists, otherwise append it; the caller's frame object observes this. -/
def setColumn (f : RawFrame) (c : String) (vals : List Cell) : RawFrame :=
  if c ∈ f.cols then
    ⟨f.cols, (f.rows.zip vals).map (fun rv => setCellRow rv.1 c rv.2)⟩
  else
    ⟨f.cols ++ [c], (f.rows.zip vals).map (fun rv => rv.1 ++ [(c, rv.2)])⟩

/-- `.str.strip()` on one cell: strip a string, NaN otherwise
(the pandas `.str` accessor yields NaN on non-string values). -/
def cellStrip : Cell → Cell
  | Cell.str s => Cell.str (strTrim s)
  | _ => Cell.na

/-- `+` of two object cells (string concatenation with NaN propagation). -/
def cellConcat : Cell → Cell → Cell
  | Cell.str a, Cell.str b => Cell.str (a ++ b)
  | _, _ => Cell.na

/-- The column list selected by `preprocess_covid19_df` (source line 79). -/
def covid_feature_list : List String := ["fips", "date", "cases", "deaths"]

/-- `preprocess_covid19_df` (source lines 48-89): select the four feature
columns (line 82, a copy — the local name is rebound, so the caller's
frame is untouched), drop rows with a missing value in any of them
(line 84), coerce `cases`/`deaths` to integer and `date` to datetime
(lines 86-88, one `astype` call with a dtype dict, modelled column by
column).  Returns (caller-visible input frame after the call, result). -/
def preprocess_covid19_df (df_covid : RawFrame) :
    Except String (RawFrame × RawFrame) :=
  Except.bind (selectCols df_covid covid_feature_list) (fun f1 =>
    Except.bind (astypeCol (dropnaSubset f1 covid_feature_list) "cases" cellToInt)
      (fun f3 =>
        Except.bind (astypeCol f3 "deaths" cellToInt) (fun f4 =>
          Except.map (fun f5 => (df_covid, f5))
            (astypeCol f4 "date" cellToDate))))

/-- The column list selected by `preprocess_population_df` (line 118). -/
def pop_feature_list : List String := ["fips", "POPESTIMATE2019"]

/-- `preprocess_population_df` (source lines 92-126): compute
`fips = STATE.str.strip() + COUNTY.str.strip()` and write it into the
caller's frame in place (lines 121-122 — KeyError before any mutation
when `STATE` or `COUNTY` is absent), coerce `POPESTIMATE2019` to integer
(line 124, a copy), select `[fips, POPESTIMATE2019]` (line 126).
Returns (caller-visible input frame after the call, result). -/
def preprocess_population_df (df_population : RawFrame) :
    Except String (RawFrame × RawFrame) :=
  Except.bind (getColCells df_population "STATE") (fun stateCells =>
    Except.bind (getColCells df_population "COUNTY") (fun countyCells =>
      Except.bind
        (astypeCol
          (setColumn df_population "fips"
            (List.zipWith (fun a b => cellConcat (cellStrip a) (cellStrip b))
              stateCells countyCells))
          "POPESTIMATE2019" cellToInt)
        (fun f2 =>
          Except.map
            (fun out =>
              (setColumn df_population "fips"
                (List.zipWith (fun a b => cellConcat (cellStrip a) (cellStrip b))
                  stateCells countyCells),
               out))
            (selectCols f2 pop_feature_list))))

/-- A concrete raw population frame (one county) used to exhibit the
in-place `fips` write and the failure of cleaning on its own output. -/
def demoPopFrame : RawFrame :=
  ⟨["STATE", "COUNTY", "POPESTIMATE2019"],
   [[("STATE", Cell.str "01"), ("COUNTY", Cell.str "001"),
     ("POPESTIMATE2019", Cell.str "1000")]]⟩

/-- A concrete raw NYT frame used to instantiate cleaning theorems. -/
def demoCovidFrame : RawFrame :=
  ⟨["date", "county", "state", "fips", "cases", "deaths"],
   [[("date", Cell.str "2020-03-01"), ("county", Cell.str "A"),
     ("state", Cell.str "B"), ("fips", Cell.str "00001"),
     ("cases", Cell.str "10"), ("deaths", Cell.str "1")]]⟩

/-- The concrete case input of the end-to-end example: county "00001",
dates 2020-03-01 and 2020-03-02. -/
def demoCovid : List CaseRecord :=
  [{ fips := "00001", date := 20200301, cases := 10, deaths := 1 },
   { fips := "00001", date := 20200302, cases := 15, deaths := 2 }]

/-- The concrete population input of the end-to-end example. -/
def demoPopulation : List PopulationRecord :=
  [{ fips := "00001", popestimate2019 := 1000 }]

/-- Default joined row used with `List.getD` in indexed statements. -/
def dummyCombined : CombinedRecord :=
  { fips := "", date := 0, cases := 0, deaths := 0, popestimate2019 := none }

/-- The caller-visible effect of `preprocess_population_df` on its
argument: the in-place write of the `fips` column computed from the
stripped `STATE` and `COUNTY` columns (source lines 121-122); nothing
else in the function writes to the caller's frame. -/
def popWithFips (df : RawFrame) : RawFrame :=
  setColumn df "fips"
    (List.zipWith (fun a b => cellConcat (cellStrip a) (cellStrip b))
      (df.rows.map (fun r => getCellRow r "STATE"))
      (df.rows.map (fun r => getCellRow r "COUNTY")))

/-- `demoPopFrame` as the caller sees it after `preprocess_population_df`:
the `fips` column has been written in place. -/
def demoPopFrameAfter : RawFrame :=
  ⟨["STATE", "COUNTY", "POPESTIMATE2019", "fips"],
   [[("STATE", Cell.str "01"), ("COUNTY", Cell.str "001"),
     ("POPESTIMATE2019", Cell.str "1000"), ("fips", Cell.str "01001")]]⟩

/-- The cleaned population table returned for `demoPopFrame`. -/
def demoPopCleaned : RawFrame :=
  ⟨["fips", "POPESTIMATE2019"],
   [[("fips", Cell.str "01001"), ("POPESTIMATE2019", Cell.int 1000)]]⟩

/-- The cleaned NYT table returned for `demoCovidFrame`. -/
def demoCovidCleaned : RawFrame :=
  ⟨["fips", "date", "cases", "deaths"],
   [[("fips", Cell.str "00001"), ("date", Cell.date 20200301),
     ("cases", Cell.int 10), ("deaths", Cell.int 1)]]⟩

/-- A county series whose cumulative cases and deaths both decrease
between the two (date-sorted) rows. -/
def decreasingCounty : List CombinedRecord :=
  [{ fips := "00002", date := 20200401, cases := 10, deaths := 5,
     popestimate2019 := some 100 },
   { fips := "00002", date := 20200402, cases := 7, deaths := 3,
     popestimate2019 := some 100 }]

/-- A case row for a county absent from the population table. -/
def demoUnmatched : CaseRecord :=
  { fips := "99999", date := 20200301, cases := 3, deaths := 1 }

/-!  ## Helper lemmas about the engine  -/

/-- The shift-and-subtract column computation, started from arbitrary
previous cumulative values, equals the explicit fold `statsAux`. -/
theorem zipRows_shift_eq : ∀ (s : List CombinedRecord) (pc pd : Int),
    zipRows s
      (List.zipWith (fun a b => a - b) (s.map (fun r => r.cases))
        (pc :: (s.map (fun r => r.cases)).dropLast))
      (List.zipWith (fun a b => a - b) (s.map (fun r => r.deaths))
        (pd :: (s.map (fun r => r.deaths)).dropLast))
      = statsAux pc pd s := by
  intro s
  induction s with
  | nil => intro pc pd; rfl
  | cons r rs ih =>
    intro pc pd
    cases rs with
    | nil => rfl
    | cons r' rs' =>
      show _ = mkStat r pc pd :: statsAux r.cases r.deaths (r' :: rs')
      rw [← ih r.cases r.deaths]
      rfl

/-- `calculate_stats_by_county` computes the fold `statsAux 0 0` over the
date-sorted rows: the shifted-column differences are exactly the deltas
against the previous row, with a virtual zero predecessor. -/
theorem calculate_stats_by_county_eq_statsAux (rows : List CombinedRecord) :
    calculate_stats_by_county rows = statsAux 0 0 (sortByDate rows) := by
  unfold calculate_stats_by_county shiftFillZero
  exact zipRows_shift_eq (sortByDate rows) 0 0

/-- The engine emits one output row per input row. -/
theorem statsAux_length : ∀ (l : List CombinedRecord) (pc pd : Int),
    (statsAux pc pd l).length = l.length := by
  intro l
  induction l with
  | nil => intro pc pd; rfl
  | cons r rs ih => intro pc pd; simp [statsAux, ih]

/-- The i-th output row of `statsAux` is built from the i-th input row
and the (i-1)-th input row's cumulative values (or the carried-in values
at index 0). -/
theorem statsAux_getD : ∀ (l : List CombinedRecord) (pc pd : Int) (i : Nat),
    i < l.length →
    (statsAux pc pd l).getD i dummyStat
      = mkStat (l.getD i dummyCombined)
          (if i = 0 then pc else (l.getD (i - 1) dummyCombined).cases)
          (if i = 0 then pd else (l.getD (i - 1) dummyCombined).deaths) := by
  intro l
  induction l with
  | nil => intro pc pd i h; simp at h
  | cons r rs ih =>
    intro pc pd i h
    cases i with
    | zero => rfl
    | succ j =>
      have hj : j < rs.length := by simpa using h
      show (statsAux r.cases r.deaths rs).getD j dummyStat = _
      rw [ih r.cases r.deaths j hj]
      cases j with
      | zero => simp
      | succ k => simp

/-- The cumulative-cases column of the output is the (sorted) input's
`cases` column, renamed. -/
theorem statsAux_map_cum_cases : ∀ (l : List CombinedRecord) (pc pd : Int),
    (statsAux pc pd l).map (fun o => o.cumulative_cases_to_date)
      = l.map (fun r => r.cases) := by
  intro l
  induction l with
  | nil => intro pc pd; rfl
  | cons r rs ih => intro pc pd; simp [statsAux, mkStat, ih]

/-- The cumulative-deaths column of the output is the (sorted) input's
`deaths` column, renamed. -/
theorem statsAux_map_cum_deaths : ∀ (l : List CombinedRecord) (pc pd : Int),
    (statsAux pc pd l).map (fun o => o.cumulative_deaths_to_date)
      = l.map (fun r => r.deaths) := by
  intro l
  induction l with
  | nil => intro pc pd; rfl
  | cons r rs ih => intro pc pd; simp [statsAux, mkStat, ih]

/-- The engine passes the `date` column through unchanged. -/
theorem statsAux_map_date : ∀ (l : List CombinedRecord) (pc pd : Int),
    (statsAux pc pd l).map (fun o => o.date) = l.map (fun r => r.date) := by
  intro l
  induction l with
  | nil => intro pc pd; rfl
  | cons r rs ih => intro pc pd; simp [statsAux, mkStat, ih]

/-- The engine passes the `fips` key through unchanged. -/
theorem statsAux_map_fips : ∀ (l : List CombinedRecord) (pc pd : Int),
    (statsAux pc pd l).map (fun o => o.fips) = l.map (fun r => r.fips) := by
  intro l
  induction l with
  | nil => intro pc pd; rfl
  | cons r rs ih => intro pc pd; simp [statsAux, mkStat, ih]

/-- Telescoping: the daily-cases column of `statsAux pc pd l` sums to the
last `cases` value minus the carried-in `pc`. -/
theorem statsAux_sum_daily_cases : ∀ (l : List CombinedRecord) (pc pd : Int),
    ((statsAux pc pd l).map (fun o => o.daily_cases)).sum
      = ((l.map (fun r => r.cases)).getLast?).getD pc - pc := by
  intro l
  induction l with
  | nil => intro pc pd; simp [statsAux]
  | cons r rs ih =>
    intro pc pd
    cases rs with
    | nil => simp [statsAux, mkStat]
    | cons r' rs' =>
      have hne : ((r' :: rs').map (fun r => r.cases)) ≠ [] := by simp
      obtain ⟨x, hx⟩ := Option.isSome_iff_exists.mp
        (List.getLast?_isSome.mpr hne)
      have hih := ih r.cases r.deaths
      rw [hx] at hih
      have hstep : statsAux pc pd (r :: r' :: rs')
          = mkStat r pc pd :: statsAux r.cases r.deaths (r' :: rs') := rfl
      rw [hstep, List.map_cons, List.sum_cons, hih]
      have hlast : ((r :: r' :: rs').map (fun t => t.cases)).getLast? = some x := by
        simp only [List.map_cons] at hx ⊢
        rw [List.getLast?_cons_cons]
        exact hx
      rw [hlast]
      simp only [mkStat, Option.getD_some]
      omega

/-- Telescoping for deaths. -/
theorem statsAux_sum_daily_deaths : ∀ (l : List CombinedRecord) (pc pd : Int),
    ((statsAux pc pd l).map (fun o => o.daily_deaths)).sum
      = ((l.map (fun r => r.deaths)).getLast?).getD pd - pd := by
  intro l
  induction l with
  | nil => intro pc pd; simp [statsAux]
  | cons r rs ih =>
    intro pc pd
    cases rs with
    | nil => simp [statsAux, mkStat]
    | cons r' rs' =>
      have hne : ((r' :: rs').map (fun r => r.deaths)) ≠ [] := by simp
      obtain ⟨x, hx⟩ := Option.isSome_iff_exists.mp
        (List.getLast?_isSome.mpr hne)
      have hih := ih r.cases r.deaths
      rw [hx] at hih
      have hstep : statsAux pc pd (r :: r' :: rs')
          = mkStat r pc pd :: statsAux r.cases r.deaths (r' :: rs') := rfl
      rw [hstep, List.map_cons, List.sum_cons, hih]
      have hlast : ((r :: r' :: rs').map (fun t => t.deaths)).getLast? = some x := by
        simp only [List.map_cons] at hx ⊢
        rw [List.getLast?_cons_cons]
        exact hx
      rw [hlast]
      simp only [mkStat, Option.getD_some]
      omega

/-- Every output row of `statsAux` comes from some input row, with the
key fields and the population formula tied to that row. -/
theorem statsAux_mem_src : ∀ (l : List CombinedRecord) (pc pd : Int)
    (o : StatRecord), o ∈ statsAux pc pd l →
    ∃ r ∈ l, o.fips = r.fips ∧ o.date = r.date
      ∧ o.population = r.popestimate2019.map (fun p => p - r.deaths)
      ∧ o.cumulative_cases_to_date = r.cases
      ∧ o.cumulative_deaths_to_date = r.deaths := by
  intro l
  induction l with
  | nil => intro pc pd o h; simp [statsAux] at h
  | cons r rs ih =>
    intro pc pd o h
    have hstep : statsAux pc pd (r :: rs)
        = mkStat r pc pd :: statsAux r.cases r.deaths rs := rfl
    rw [hstep] at h
    rcases List.mem_cons.mp h with rfl | h'
    · exact ⟨r, List.mem_cons_self r rs, rfl, rfl, rfl, rfl, rfl⟩
    · obtain ⟨r', hr', hfields⟩ := ih r.cases r.deaths o h'
      exact ⟨r', List.mem_cons_of_mem r hr', hfields⟩

/-- Every input row produces an output row of `statsAux`, with the key
fields and the population formula tied to it. -/
theorem statsAux_src_mem : ∀ (l : List CombinedRecord) (pc pd : Int)
    (r : CombinedRecord), r ∈ l →
    ∃ o ∈ statsAux pc pd l, o.fips = r.fips ∧ o.date = r.date
      ∧ o.population = r.popestimate2019.map (fun p => p - r.deaths)
      ∧ o.cumulative_cases_to_date = r.cases
      ∧ o.cumulative_deaths_to_date = r.deaths := by
  intro l
  induction l with
  | nil => intro pc pd r h; simp at h
  | cons a rs ih =>
    intro pc pd r h
    rcases List.mem_cons.mp h with rfl | h'
    · exact ⟨mkStat r pc pd, List.mem_cons_self _ _, rfl, rfl, rfl, rfl, rfl⟩
    · obtain ⟨o, ho, hfields⟩ := ih a.cases a.deaths r h'
      exact ⟨o, List.mem_cons_of_mem _ ho, hfields⟩

/-!  ## Claim theorems  -/

/-- C1: for every county series, in the date-sorted output of
`calculate_stats_by_county` the row at (0-based) index i has
`daily_cases = cumulative_cases_to_date[i] - cumulative_cases_to_date[i-1]`
and likewise for deaths, where the predecessor of the first row is a
virtual row with both cumulative values 0; in particular the first sorted
row's daily count equals its own cumulative count. -/
theorem claim_C1_daily_is_delta (rows : List CombinedRecord) (i : Nat)
    (h : i < (calculate_stats_by_county rows).length) :
    ((calculate_stats_by_county rows).getD i dummyStat).daily_cases
      = ((calculate_stats_by_county rows).getD i dummyStat).cumulative_cases_to_date
        - (if i = 0 then 0
           else ((calculate_stats_by_county rows).getD (i - 1) dummyStat).cumulative_cases_to_date)
    ∧ ((calculate_stats_by_county rows).getD i dummyStat).daily_deaths
      = ((calculate_stats_by_county rows).getD i dummyStat).cumulative_deaths_to_date
        - (if i = 0 then 0
           else ((calculate_stats_by_county rows).getD (i - 1) dummyStat).cumulative_deaths_to_date) := by
  rw [calculate_stats_by_county_eq_statsAux] at h ⊢
  rw [statsAux_length] at h
  have h' : i - 1 < (sortByDate rows).length := Nat.lt_of_le_of_lt (Nat.pred_le i) h
  rw [statsAux_getD _ _ _ i h, statsAux_getD _ _ _ (i - 1) h']
  rcases Nat.eq_zero_or_pos i with hz | hp
  · subst hz; simp [mkStat]
  · have hiz : ¬ i = 0 := Nat.pos_iff_ne_zero.mp hp
    simp [mkStat, hiz]

/-- Witness for C1 at the end-to-end demo input, index 1. -/
theorem claim_C1_daily_is_delta_witness :
    1 < (calculate_stats_by_county (combine_data demoCovid demoPopulation)).length
    ∧ (((calculate_stats_by_county (combine_data demoCovid demoPopulation)).getD 1 dummyStat).daily_cases
      = ((calculate_stats_by_county (combine_data demoCovid demoPopulation)).getD 1 dummyStat).cumulative_cases_to_date
        - (if 1 = 0 then 0
           else ((calculate_stats_by_county (combine_data demoCovid demoPopulation)).getD (1 - 1) dummyStat).cumulative_cases_to_date)
    ∧ ((calculate_stats_by_county (combine_data demoCovid demoPopulation)).getD 1 dummyStat).daily_deaths
      = ((calculate_stats_by_county (combine_data demoCovid demoPopulation)).getD 1 dummyStat).cumulative_deaths_to_date
        - (if 1 = 0 then 0
           else ((calculate_stats_by_county (combine_data demoCovid demoPopulation)).getD (1 - 1) dummyStat).cumulative_deaths_to_date)) :=
  ⟨by decide, claim_C1_daily_is_delta (combine_data demoCovid demoPopulation) 1 (by decide)⟩

/-- C2: for every county series with a nonempty output, the last output
row's cumulative cases equal the sum of the daily-cases column over the
date-sorted series (telescoping, given the virtual zero predecessor),
and likewise for deaths. -/
theorem claim_C2_telescoping_sum (rows : List CombinedRecord)
    (h : calculate_stats_by_county rows ≠ []) :
    ((calculate_stats_by_county rows).map
        (fun o => o.cumulative_cases_to_date)).getLast?
      = some (((calculate_stats_by_county rows).map
          (fun o => o.daily_cases)).sum)
    ∧ ((calculate_stats_by_county rows).map
        (fun o => o.cumulative_deaths_to_date)).getLast?
      = some (((calculate_stats_by_county rows).map
          (fun o => o.daily_deaths)).sum) := by
  rw [calculate_stats_by_county_eq_statsAux] at h ⊢
  have hs : sortByDate rows ≠ [] := by
    intro hnil
    rw [hnil] at h
    exact h rfl
  constructor
  · rw [statsAux_map_cum_cases, statsAux_sum_daily_cases]
    have hne : ((sortByDate rows).map (fun r => r.cases)) ≠ [] := by
      simpa using hs
    obtain ⟨x, hx⟩ := Option.isSome_iff_exists.mp
      (List.getLast?_isSome.mpr hne)
    rw [hx]
    simp
  · rw [statsAux_map_cum_deaths, statsAux_sum_daily_deaths]
    have hne : ((sortByDate rows).map (fun r => r.deaths)) ≠ [] := by
      simpa using hs
    obtain ⟨x, hx⟩ := Option.isSome_iff_exists.mp
      (List.getLast?_isSome.mpr hne)
    rw [hx]
    simp

/-- Witness for C2 at the end-to-end demo input. -/
theorem claim_C2_telescoping_sum_witness :
    ((calculate_stats_by_county (combine_data demoCovid demoPopulation)).map
        (fun o => o.cumulative_cases_to_date)).getLast?
      = some (((calculate_stats_by_county (combine_data demoCovid demoPopulation)).map
          (fun o => o.daily_cases)).sum)
    ∧ ((calculate_stats_by_county (combine_data demoCovid demoPopulation)).map
        (fun o => o.cumulative_deaths_to_date)).getLast?
      = some (((calculate_stats_by_county (combine_data demoCovid demoPopulation)).map
          (fun o => o.daily_deaths)).sum) :=
  claim_C2_telescoping_sum (combine_data demoCovid demoPopulation) (by decide)

/-- C3: when the population estimate is constant (`some p`) across a
county's series, every output row satisfies
`population = p - cumulative_deaths_to_date` exactly, in integer
arithmetic: only cumulative deaths are subtracted. -/
theorem claim_C3_population_formula (rows : List CombinedRecord) (p : Int)
    (hconst : ∀ r ∈ rows, r.popestimate2019 = some p) :
    ∀ o ∈ calculate_stats_by_county rows,
      o.population = some (p - o.cumulative_deaths_to_date) := by
  intro o ho
  rw [calculate_stats_by_county_eq_statsAux] at ho
  obtain ⟨r, hr, _, _, hpop, _, hdeaths⟩ := statsAux_mem_src _ _ _ o ho
  have hr' : r ∈ rows := (List.perm_insertionSort dateLE rows).mem_iff.mp hr
  rw [hpop, hconst r hr', hdeaths]
  rfl

/-- Witness for C3 at the end-to-end demo input, first output row. -/
theorem claim_C3_population_formula_witness :
    ((calculate_stats_by_county (combine_data demoCovid demoPopulation)).getD 0 dummyStat).population
      = some (1000 - ((calculate_stats_by_county (combine_data demoCovid demoPopulation)).getD 0
          dummyStat).cumulative_deaths_to_date) :=
  claim_C3_population_formula (combine_data demoCovid demoPopulation) 1000
    (by decide) _ (by decide)

/-- C4: the end-to-end example — two case rows for county "00001" joined
with a population estimate of 1000 produce exactly the two expected
output rows. -/
theorem claim_C4_end_to_end :
    calculate_stats (combine_data demoCovid demoPopulation)
      = [{ fips := "00001", date := 20200301, population := some 999,
           daily_cases := 10, daily_deaths := 1,
           cumulative_cases_to_date := 10, cumulative_deaths_to_date := 1 },
         { fips := "00001", date := 20200302, population := some 998,
           daily_cases := 5, daily_deaths := 1,
           cumulative_cases_to_date := 15, cumulative_deaths_to_date := 2 }] := by
  decide

/-- C10: the engine performs no validation or clamping of deltas — on a
series whose cumulative counts decrease between consecutive sorted dates
it emits a negative daily count for the later date, still producing one
output row per input row (no error, no row dropped; the embedding of the
engine is a total function). -/
theorem claim_C10_negative_deltas :
    (decreasingCounty.getD 0 dummyCombined).date
        < (decreasingCounty.getD 1 dummyCombined).date
    ∧ (decreasingCounty.getD 1 dummyCombined).cases
        < (decreasingCounty.getD 0 dummyCombined).cases
    ∧ (decreasingCounty.getD 1 dummyCombined).deaths
        < (decreasingCounty.getD 0 dummyCombined).deaths
    ∧ ((calculate_stats_by_county decreasingCounty).getD 1 dummyStat).daily_cases < 0
    ∧ ((calculate_stats_by_county decreasingCounty).getD 1 dummyStat).daily_deaths < 0
    ∧ (calculate_stats_by_county decreasingCounty).length
        = decreasingCounty.length := by
  decide

/-- When the population fips keys are pairwise distinct, at most one
population row matches any key. -/
theorem filter_fips_length_le_one : ∀ (pop : List PopulationRecord) (k : String),
    (pop.map (fun p => p.fips)).Nodup →
    (pop.filter (fun p => decide (p.fips = k))).length ≤ 1 := by
  intro pop k
  induction pop with
  | nil => intro _; simp
  | cons p ps ih =>
    intro h
    rw [List.map_cons, List.nodup_cons] at h
    obtain ⟨hnotin, hps⟩ := h
    by_cases hpk : p.fips = k
    · have hnil : ps.filter (fun q => decide (q.fips = k)) = [] := by
        rw [List.filter_eq_nil_iff]
        intro q hq hqk
        have hqfips : q.fips = k := of_decide_eq_true hqk
        exact hnotin (List.mem_map.mpr ⟨q, hq, hqfips.trans hpk.symm⟩)
      simp [List.filter_cons, hpk, hnil]
    · simp only [List.filter_cons, decide_eq_true_eq, if_neg hpk]
      exact ih hps

/-- The left join splits along the case rows. -/
theorem combine_data_cons (c : CaseRecord) (cs : List CaseRecord)
    (pop : List PopulationRecord) :
    combine_data (c :: cs) pop = combine_data [c] pop ++ combine_data cs pop := by
  simp [combine_data]

/-- With unique population keys, the join block of a single case row is a
single joined row whose case-side fields are that row's. -/
theorem combine_data_single_map (pop : List PopulationRecord) (c : CaseRecord)
    (h : (pop.filter (fun p => decide (p.fips = c.fips))).length ≤ 1) :
    (combine_data [c] pop).map toCaseRecord = [c] := by
  rcases hfl : pop.filter (fun p => decide (p.fips = c.fips)) with _ | ⟨q, qs⟩
  · simp only [combine_data, List.flatMap_cons, List.flatMap_nil,
      List.append_nil, hfl, List.map_nil, List.isEmpty_nil, if_true]
    simp [toCaseRecord]
  · have hqs : qs = [] := by
      have hlen := congrArg List.length hfl
      rw [hlen] at h
      have : qs.length = 0 := Nat.le_zero.mp (Nat.succ_le_succ_iff.mp h)
      exact List.length_eq_zero.mp this
    subst hqs
    simp only [combine_data, List.flatMap_cons, List.flatMap_nil,
      List.append_nil, hfl, List.map_cons, List.map_nil]
    simp [toCaseRecord]

/-- C5: when the population fips keys are unique, the left join emits
exactly one output row per input case row — none dropped, none
duplicated, and the case-side fields are preserved in order. -/
theorem claim_C5_join_cardinality (covid : List CaseRecord)
    (pop : List PopulationRecord)
    (hnodup : (pop.map (fun p => p.fips)).Nodup) :
    (combine_data covid pop).map toCaseRecord = covid
    ∧ (combine_data covid pop).length = covid.length := by
  have hmap : (combine_data covid pop).map toCaseRecord = covid := by
    induction covid with
    | nil => rfl
    | cons c cs ih =>
      rw [combine_data_cons, List.map_append,
        combine_data_single_map pop c (filter_fips_length_le_one pop c.fips hnodup), ih]
      rfl
  refine ⟨hmap, ?_⟩
  rw [← List.length_map (combine_data covid pop) toCaseRecord, hmap]

/-- Witness for C5 at the end-to-end demo input. -/
theorem claim_C5_join_cardinality_witness :
    (combine_data demoCovid demoPopulation).map toCaseRecord = demoCovid
    ∧ (combine_data demoCovid demoPopulation).length = demoCovid.length :=
  claim_C5_join_cardinality demoCovid demoPopulation (by decide)

/-- Every joined row yields an aggregated output row carrying its keys
and the population formula applied to its (possibly missing) estimate. -/
theorem calculate_stats_mem (combined : List CombinedRecord)
    (cr : CombinedRecord) (hcr : cr ∈ combined) :
    ∃ o ∈ calculate_stats combined, o.fips = cr.fips ∧ o.date = cr.date
      ∧ o.population = cr.popestimate2019.map (fun p => p - cr.deaths) := by
  have hk : cr.fips ∈ ((combined.map (fun r => r.fips)).dedup).insertionSort
      (fun a b : String => a ≤ b) := by
    rw [(List.perm_insertionSort _ _).mem_iff, List.mem_dedup]
    exact List.mem_map.mpr ⟨cr, hcr, rfl⟩
  have hfil : cr ∈ combined.filter (fun r => decide (r.fips = cr.fips)) :=
    List.mem_filter.mpr ⟨hcr, by simp⟩
  have hsort : cr ∈ sortByDate (combined.filter (fun r => decide (r.fips = cr.fips))) := by
    unfold sortByDate
    rw [(List.perm_insertionSort _ _).mem_iff]
    exact hfil
  obtain ⟨o, ho, hf, hd, hp, _, _⟩ := statsAux_src_mem _ 0 0 cr hsort
  refine ⟨o, ?_, hf, hd, hp⟩
  unfold calculate_stats
  exact List.mem_flatMap.mpr ⟨cr.fips, hk, by
    rw [calculate_stats_by_county_eq_statsAux]
    exact ho⟩

/-- C6: a case row whose fips has no population counterpart is neither
dropped nor an error: it still yields an aggregated output row, with a
missing population value propagated through the subtraction (the whole
embedded pipeline is total, so no error can be raised). -/
theorem claim_C6_unmatched_county (covid : List CaseRecord)
    (pop : List PopulationRecord) (c : CaseRecord) (hc : c ∈ covid)
    (hnm : ∀ p ∈ pop, p.fips ≠ c.fips) :
    ∃ o ∈ calculate_stats (combine_data covid pop),
      o.fips = c.fips ∧ o.date = c.date ∧ o.population = none := by
  have hfilnil : pop.filter (fun p => decide (p.fips = c.fips)) = [] := by
    rw [List.filter_eq_nil_iff]
    intro p hp hpk
    exact hnm p hp (of_decide_eq_true hpk)
  have hcr : ({ fips := c.fips, date := c.date, cases := c.cases,
                deaths := c.deaths, popestimate2019 := none } : CombinedRecord)
      ∈ combine_data covid pop := by
    unfold combine_data
    refine List.mem_flatMap.mpr ⟨c, hc, ?_⟩
    rw [hfilnil]
    simp
  obtain ⟨o, ho, hf, hd, hp⟩ := calculate_stats_mem _ _ hcr
  exact ⟨o, ho, hf, hd, hp⟩

/-- Witness for C6: the unmatched county "99999" joined against the demo
population table. -/
theorem claim_C6_unmatched_county_witness :
    ∃ o ∈ calculate_stats (combine_data [demoUnmatched] demoPopulation),
      o.fips = demoUnmatched.fips ∧ o.date = demoUnmatched.date
        ∧ o.population = none :=
  claim_C6_unmatched_county [demoUnmatched] demoPopulation demoUnmatched
    (by decide) (by decide)

/-- If every row of a county partition carries the key `k`, so does every
engine output row. -/
theorem calculate_stats_by_county_fips (l : List CombinedRecord) (k : String)
    (hl : ∀ r ∈ l, r.fips = k) :
    ∀ o ∈ calculate_stats_by_county l, o.fips = k := by
  intro o ho
  rw [calculate_stats_by_county_eq_statsAux] at ho
  obtain ⟨r, hr, hf, _⟩ := statsAux_mem_src _ 0 0 o ho
  rw [hf]
  exact hl r ((List.perm_insertionSort dateLE l).mem_iff.mp hr)

/-- Extracting one group from a keyed concatenation: when keys are
distinct, each group's rows carry its key, and a missing key has an
empty group, filtering the concatenation by key `k` returns exactly the
`k` group. -/
theorem keys_flatMap_filter (keys : List String) (k : String)
    (g : String → List StatRecord) (hnd : keys.Nodup)
    (hall : ∀ j, ∀ o ∈ g j, o.fips = j)
    (hnil : k ∉ keys → g k = []) :
    keys.flatMap (fun j => (g j).filter (fun o => decide (o.fips = k))) = g k := by
  induction keys with
  | nil => simp [hnil (by simp)]
  | cons j js ih =>
    rw [List.nodup_cons] at hnd
    obtain ⟨hjnot, hjs⟩ := hnd
    by_cases hjk : j = k
    · subst hjk
      have h1 : (g j).filter (fun o => decide (o.fips = j)) = g j :=
        List.filter_eq_self.mpr (fun o ho => by simpa using hall j o ho)
      have h2 : js.flatMap
          (fun j' => (g j').filter (fun o => decide (o.fips = j))) = [] := by
        rw [List.flatMap_eq_nil_iff]
        intro j' hj'
        rw [List.filter_eq_nil_iff]
        intro o ho hok
        have hq : j' = j := (hall j' o ho).symm.trans (of_decide_eq_true hok)
        exact hjnot (hq ▸ hj')
      simp [List.flatMap_cons, h1, h2]
    · have h1 : (g j).filter (fun o => decide (o.fips = k)) = [] := by
        rw [List.filter_eq_nil_iff]
        intro o ho hok
        exact hjk ((hall j o ho).symm.trans (of_decide_eq_true hok))
      rw [List.flatMap_cons, h1, List.nil_append]
      refine ih hjs ?_
      intro hk
      refine hnil ?_
      intro hmem
      rcases List.mem_cons.mp hmem with h | h
      · exact hjk h.symm
      · exact hk h

/-- The `k`-partition of the aggregated output is exactly the engine's
output on the `k`-rows of the joined frame (for any `k`, including keys
absent from the data, where both sides are empty). -/
theorem calculate_stats_filter_key (combined : List CombinedRecord) (k : String) :
    (calculate_stats combined).filter (fun o => decide (o.fips = k))
      = calculate_stats_by_county
          (combined.filter (fun r => decide (r.fips = k))) := by
  unfold calculate_stats
  rw [List.filter_flatMap]
  refine keys_flatMap_filter _ k _ ?_ ?_ ?_
  · exact ((List.perm_insertionSort _ _).nodup_iff).mpr (List.nodup_dedup _)
  · intro j o ho
    refine calculate_stats_by_county_fips _ j ?_ o ho
    intro r hr
    exact of_decide_eq_true (List.mem_filter.mp hr).2
  · intro hk
    have hknot : k ∉ combined.map (fun r => r.fips) := by
      intro hmem
      exact hk (((List.perm_insertionSort _ _).mem_iff).mpr
        (List.mem_dedup.mpr hmem))
    have : combined.filter (fun r => decide (r.fips = k)) = [] := by
      rw [List.filter_eq_nil_iff]
      intro r hr hrk
      exact hknot (List.mem_map.mpr ⟨r, hr, of_decide_eq_true hrk⟩)
    rw [this]
    rfl

/-- C9: the engine's output for a single county is ordered by date
ascending, and within each county partition of the aggregated output the
rows are exactly the engine's output in that same date-ascending order
(order across partitions is a separate, unconstrained matter). -/
theorem claim_C9_partition_date_order (combined : List CombinedRecord)
    (k : String) :
    (calculate_stats combined).filter (fun o => decide (o.fips = k))
      = calculate_stats_by_county
          (combined.filter (fun r => decide (r.fips = k)))
    ∧ List.Sorted (fun a b => a ≤ b)
        ((calculate_stats_by_county
          (combined.filter (fun r => decide (r.fips = k)))).map
            (fun o => o.date)) := by
  refine ⟨calculate_stats_filter_key combined k, ?_⟩
  rw [calculate_stats_by_county_eq_statsAux, statsAux_map_date]
  have hs : List.Sorted dateLE
      (sortByDate (combined.filter (fun r => decide (r.fips = k)))) :=
    List.sorted_insertionSort dateLE _
  exact List.pairwise_map.mpr hs

/-!  ## Helper lemmas about the frame model  -/

/-- Reading a canonical row (one entry per listed column) looks up the
generating cell function. -/
theorem getCellRow_map_names (names : List String) (h : String → Cell)
    (x : String) :
    getCellRow (names.map (fun c => (c, h c))) x
      = if x ∈ names then h x else Cell.na := by
  induction names with
  | nil => simp [getCellRow]
  | cons c cs ih =>
    simp only [List.map_cons, getCellRow]
    by_cases hcx : c = x
    · subst hcx
      simp
    · rw [if_neg hcx, ih]
      by_cases hx : x ∈ cs
      · simp [hx, List.mem_cons]
      · have hxc : ¬x = c := fun hh => hcx hh.symm
        simp [hx, List.mem_cons, hxc]

/-- Writing a cell into a canonical row updates the generating function
pointwise. -/
theorem setCellRow_map_names (names : List String) (h : String → Cell)
    (x : String) (v : Cell) :
    setCellRow (names.map (fun c => (c, h c))) x v
      = names.map (fun c => (c, if c = x then v else h c)) := by
  unfold setCellRow
  rw [List.map_map]
  refine List.map_congr_left ?_
  intro c _
  by_cases hcx : c = x
  · subst hcx
    simp
  · simp [hcx]

/-- If the per-row function returns every row unchanged, `mapME`
succeeds with the same rows. -/
theorem mapME_ok_id : ∀ (rows : List (List (String × Cell)))
    (g : List (String × Cell) → Except String (List (String × Cell))),
    (∀ r ∈ rows, g r = Except.ok r) → mapME rows g = Except.ok rows := by
  intro rows g
  induction rows with
  | nil => intro _; rfl
  | cons r rs ih =>
    intro h
    have hr := h r (List.mem_cons_self r rs)
    have hrs := ih (fun q hq => h q (List.mem_cons_of_mem r hq))
    unfold mapME
    rw [hr, hrs]

/-- Every row of a successful `mapME` output comes from applying the
per-row function to some input row. -/
theorem mapME_ok_forall : ∀ (rows rows' : List (List (String × Cell)))
    (g : List (String × Cell) → Except String (List (String × Cell))),
    mapME rows g = Except.ok rows' →
    ∀ r' ∈ rows', ∃ r ∈ rows, g r = Except.ok r' := by
  intro rows
  induction rows with
  | nil =>
    intro rows' g h r' hr'
    cases h
    simp at hr'
  | cons r rs ih =>
    intro rows' g h r' hr'
    unfold mapME at h
    cases hg : g r with
    | error e => rw [hg] at h; exact Except.noConfusion h
    | ok b =>
      rw [hg] at h
      cases hrec : mapME rs g with
      | error e => rw [hrec] at h; exact Except.noConfusion h
      | ok bs =>
        rw [hrec] at h
        cases h
        rcases List.mem_cons.mp hr' with rfl | hmem
        · exact ⟨r, List.mem_cons_self r rs, hg⟩
        · obtain ⟨q, hq, hgq⟩ := ih bs g hrec r' hmem
          exact ⟨q, List.mem_cons_of_mem r hq, hgq⟩

/-- A successful integer coercion yields an integer cell. -/
theorem cellToInt_ok (x v : Cell) (h : cellToInt x = Except.ok v) :
    ∃ n, v = Cell.int n := by
  cases x with
  | na => exact Except.noConfusion h
  | str s =>
    have h' : (match strToInt? s with
        | some n => Except.ok (Cell.int n)
        | none => (Except.error "ValueError" : Except String Cell))
        = Except.ok v := h
    cases hp : strToInt? s with
    | none => rw [hp] at h'; exact Except.noConfusion h'
    | some n =>
      rw [hp] at h'
      cases h'
      exact ⟨n, rfl⟩
  | int n => cases h; exact ⟨n, rfl⟩
  | date d => cases h; exact ⟨Int.ofNat d, rfl⟩

/-- A successful datetime coercion of a non-missing cell yields a date
cell. -/
theorem cellToDate_ok_not_na (x v : Cell) (hna : cellIsNA x = false)
    (h : cellToDate x = Except.ok v) : ∃ d, v = Cell.date d := by
  cases x with
  | na => exact Bool.noConfusion hna
  | str s =>
    have h' : (match parseDate s with
        | some d => Except.ok (Cell.date d)
        | none => (Except.error "ValueError" : Except String Cell))
        = Except.ok v := h
    cases hp : parseDate s with
    | none => rw [hp] at h'; exact Except.noConfusion h'
    | some d =>
      rw [hp] at h'
      cases h'
      exact ⟨d, rfl⟩
  | int n => cases h; exact ⟨n.toNat, rfl⟩
  | date d => cases h; exact ⟨d, rfl⟩

/-- A successful column selection keeps exactly the requested columns,
with rows projected to canonical form. -/
theorem selectCols_ok (f : RawFrame) (names : List String) (g : RawFrame)
    (h : selectCols f names = Except.ok g) :
    g.cols = names
    ∧ g.rows = f.rows.map (fun r => names.map (fun c => (c, getCellRow r c))) := by
  unfold selectCols at h
  split at h
  · cases h; exact ⟨rfl, rfl⟩
  · exact Except.noConfusion h

/-- Column selection is the identity on a frame already in canonical
form over the requested columns. -/
theorem selectCols_eq_self (f : RawFrame) (names : List String)
    (hin : ∀ n ∈ names, n ∈ f.cols)
    (hrows : ∀ r ∈ f.rows, names.map (fun c => (c, getCellRow r c)) = r)
    (hcols : f.cols = names) :
    selectCols f names = Except.ok f := by
  unfold selectCols
  rw [if_pos hin]
  have : f.rows.map (fun r => names.map (fun c => (c, getCellRow r c))) = f.rows := by
    rw [List.map_congr_left hrows]
    simp
  rw [this, ← hcols]

/-- Dropping missing values is the identity when no listed column of any
row is missing. -/
theorem dropnaSubset_eq_self (f : RawFrame) (names : List String)
    (h : ∀ r ∈ f.rows, names.all (fun c => !(cellIsNA (getCellRow r c))) = true) :
    dropnaSubset f names = f := by
  unfold dropnaSubset
  rw [List.filter_eq_self.mpr h]

/-- A successful cast keeps the column list and rewrites each row by a
successful per-cell coercion. -/
theorem astypeCol_ok (f : RawFrame) (c : String)
    (coe : Cell → Except String Cell) (g : RawFrame)
    (h : astypeCol f c coe = Except.ok g) :
    g.cols = f.cols
    ∧ ∀ r' ∈ g.rows, ∃ r ∈ f.rows, ∃ v,
        coe (getCellRow r c) = Except.ok v ∧ r' = setCellRow r c v := by
  unfold astypeCol at h
  split at h
  · cases hm : mapME f.rows (fun r =>
        match coe (getCellRow r c) with
        | Except.error e => Except.error e
        | Except.ok v => Except.ok (setCellRow r c v)) with
    | error e => rw [hm] at h; exact Except.noConfusion h
    | ok rows' =>
      rw [hm] at h
      cases h
      refine ⟨rfl, ?_⟩
      intro r' hr'
      obtain ⟨r, hr, hgr⟩ := mapME_ok_forall f.rows rows' _ hm r' hr'
      refine ⟨r, hr, ?_⟩
      revert hgr
      cases hcoe : coe (getCellRow r c) with
      | error e => intro hgr; exact Except.noConfusion hgr
      | ok v =>
        intro hgr
        cases hgr
        exact ⟨v, rfl, rfl⟩
  · exact Except.noConfusion h

/-- A cast is the identity when the column exists and every cell of it
coerces to itself without moving the row. -/
theorem astypeCol_eq_self (f : RawFrame) (c : String)
    (coe : Cell → Except String Cell) (hc : c ∈ f.cols)
    (h : ∀ r ∈ f.rows, coe (getCellRow r c) = Except.ok (getCellRow r c)
      ∧ setCellRow r c (getCellRow r c) = r) :
    astypeCol f c coe = Except.ok f := by
  unfold astypeCol
  rw [if_pos hc]
  have hm : mapME f.rows (fun r =>
      match coe (getCellRow r c) with
      | Except.error e => Except.error e
      | Except.ok v => Except.ok (setCellRow r c v)) = Except.ok f.rows := by
    refine mapME_ok_id _ _ ?_
    intro r hr
    rw [(h r hr).1]
    show Except.ok (setCellRow r c (getCellRow r c)) = Except.ok r
    rw [(h r hr).2]
  rw [hm]

/-- `Except.bind` on a success. -/
theorem except_bind_ok {ε α β : Type} (a : α) (f : α → Except ε β) :
    Except.bind (Except.ok a) f = f a := rfl

/-- `Except.bind` on a failure. -/
theorem except_bind_error {ε α β : Type} (e : ε) (f : α → Except ε β) :
    Except.bind (Except.error e : Except ε α) f = Except.error e := rfl

/-- `Except.map` on a success. -/
theorem except_map_ok {ε α β : Type} (g : α → β) (a : α) :
    Except.map g (Except.ok a : Except ε α) = Except.ok (g a) := rfl

/-- `Except.map` on a failure. -/
theorem except_map_error {ε α β : Type} (g : α → β) (e : ε) :
    Except.map g (Except.error e : Except ε α) = Except.error e := rfl

/-- A successful whole-column read requires the column to exist and
returns its cells in row order. -/
theorem getColCells_ok (f : RawFrame) (c : String) (cs : List Cell)
    (h : getColCells f c = Except.ok cs) :
    c ∈ f.cols ∧ cs = f.rows.map (fun r => getCellRow r c) := by
  by_cases hmem : c ∈ f.cols
  · unfold getColCells at h
    rw [if_pos hmem] at h
    cases h
    exact ⟨hmem, rfl⟩
  · unfold getColCells at h
    rw [if_neg hmem] at h
    exact Except.noConfusion h

/-- Reading an absent column raises a KeyError. -/
theorem getColCells_error (f : RawFrame) (c : String) (hmem : c ∉ f.cols) :
    getColCells f c = Except.error "KeyError" := by
  unfold getColCells
  rw [if_neg hmem]

/-- One column cast over canonically shaped rows: the output rows are
again canonical, with the cast column's cell rewritten by a successful
coercion and every other column untouched (`Q` carries whatever is known
about the input rows' cell functions). -/
theorem astypeCol_canon_step (f g : RawFrame) (c : String)
    (coe : Cell → Except String Cell) (hc : c ∈ covid_feature_list)
    (Q : (String → Cell) → Prop)
    (hok : astypeCol f c coe = Except.ok g)
    (hrows : ∀ r ∈ f.rows, ∃ hf : String → Cell,
      r = covid_feature_list.map (fun x => (x, hf x)) ∧ Q hf) :
    g.cols = f.cols
    ∧ ∀ r' ∈ g.rows, ∃ hf : String → Cell, ∃ v : Cell, Q hf
        ∧ coe (hf c) = Except.ok v
        ∧ r' = covid_feature_list.map
            (fun x => (x, if x = c then v else hf x)) := by
  obtain ⟨hcols, hr⟩ := astypeCol_ok f c coe g hok
  refine ⟨hcols, ?_⟩
  intro r' hr'
  obtain ⟨r, hrf, v, hcoe, hset⟩ := hr r' hr'
  obtain ⟨hf, hcanon, hQ⟩ := hrows r hrf
  subst hcanon
  rw [getCellRow_map_names, if_pos hc] at hcoe
  rw [setCellRow_map_names] at hset
  exact ⟨hf, v, hQ, hcoe, hset⟩

/-- Shape of a successful run of the covid cleaner: the caller's frame is
returned untouched, and the cleaned frame has exactly the four feature
columns, every row canonical with integer `cases`/`deaths`, a date
`date`, and a non-missing `fips`. -/
theorem preprocess_covid19_df_ok_shape (df a out : RawFrame)
    (h : preprocess_covid19_df df = Except.ok (a, out)) :
    a = df ∧ out.cols = covid_feature_list
    ∧ ∀ r ∈ out.rows, ∃ hf : String → Cell,
        r = covid_feature_list.map (fun x => (x, hf x))
        ∧ (∃ n, hf "cases" = Cell.int n)
        ∧ (∃ n, hf "deaths" = Cell.int n)
        ∧ (∃ d, hf "date" = Cell.date d)
        ∧ cellIsNA (hf "fips") = false := by
  unfold preprocess_covid19_df at h
  cases hsel : selectCols df covid_feature_list with
  | error e =>
    rw [hsel, except_bind_error] at h
    exact Except.noConfusion h
  | ok f1 =>
    simp only [hsel, except_bind_ok] at h
    obtain ⟨hf1cols, hf1rows⟩ := selectCols_ok df covid_feature_list f1 hsel
    have hP2 : ∀ r ∈ (dropnaSubset f1 covid_feature_list).rows,
        ∃ hf : String → Cell, r = covid_feature_list.map (fun x => (x, hf x))
          ∧ ∀ x ∈ covid_feature_list, cellIsNA (hf x) = false := by
      intro r hr
      obtain ⟨hmem, hall⟩ := List.mem_filter.mp hr
      rw [hf1rows] at hmem
      obtain ⟨r0, _, hr0⟩ := List.mem_map.mp hmem
      refine ⟨fun x => getCellRow r0 x, hr0.symm, ?_⟩
      intro x hx
      have hx' := (List.all_eq_true.mp hall) x hx
      rw [← hr0, getCellRow_map_names, if_pos hx] at hx'
      cases hh : cellIsNA (getCellRow r0 x)
      · rfl
      · rw [hh] at hx'
        exact Bool.noConfusion hx'
    cases hc3 : astypeCol (dropnaSubset f1 covid_feature_list) "cases" cellToInt with
    | error e =>
      rw [hc3, except_bind_error] at h
      exact Except.noConfusion h
    | ok f3 =>
      simp only [hc3, except_bind_ok] at h
      obtain ⟨hcols3, hrows3⟩ := astypeCol_canon_step _ f3 "cases" cellToInt
        (by decide) _ hc3 hP2
      have hP3 : ∀ r ∈ f3.rows, ∃ hf : String → Cell,
          r = covid_feature_list.map (fun x => (x, hf x))
          ∧ (∀ x ∈ covid_feature_list, cellIsNA (hf x) = false)
          ∧ (∃ n, hf "cases" = Cell.int n) := by
        intro r hr
        obtain ⟨hf, v, hQ, hcoe, hcanon⟩ := hrows3 r hr
        obtain ⟨n, hv⟩ := cellToInt_ok _ _ hcoe
        subst hv
        refine ⟨fun x => if x = "cases" then Cell.int n else hf x, hcanon, ?_, ?_⟩
        · intro x hx
          show cellIsNA (if x = "cases" then Cell.int n else hf x) = false
          by_cases hxc : x = "cases"
          · rw [if_pos hxc]
            rfl
          · rw [if_neg hxc]
            exact hQ x hx
        · refine ⟨n, ?_⟩
          show (if ("cases" : String) = "cases" then Cell.int n else hf "cases")
            = Cell.int n
          rw [if_pos rfl]
      cases hd4 : astypeCol f3 "deaths" cellToInt with
      | error e =>
        rw [hd4, except_bind_error] at h
        exact Except.noConfusion h
      | ok f4 =>
        simp only [hd4, except_bind_ok] at h
        obtain ⟨hcols4, hrows4⟩ := astypeCol_canon_step f3 f4 "deaths" cellToInt
          (by decide) _ hd4 hP3
        have hP4 : ∀ r ∈ f4.rows, ∃ hf : String → Cell,
            r = covid_feature_list.map (fun x => (x, hf x))
            ∧ (∀ x ∈ covid_feature_list, cellIsNA (hf x) = false)
            ∧ (∃ n, hf "cases" = Cell.int n)
            ∧ (∃ n, hf "deaths" = Cell.int n) := by
          intro r hr
          obtain ⟨hf, v, ⟨hQna, n0, hQc⟩, hcoe, hcanon⟩ := hrows4 r hr
          obtain ⟨n, hv⟩ := cellToInt_ok _ _ hcoe
          subst hv
          refine ⟨fun x => if x = "deaths" then Cell.int n else hf x, hcanon,
            ?_, ?_, ?_⟩
          · intro x hx
            show cellIsNA (if x = "deaths" then Cell.int n else hf x) = false
            by_cases hxc : x = "deaths"
            · rw [if_pos hxc]
              rfl
            · rw [if_neg hxc]
              exact hQna x hx
          · refine ⟨n0, ?_⟩
            show (if ("cases" : String) = "deaths" then Cell.int n else hf "cases")
              = Cell.int n0
            rw [if_neg (by decide)]
            exact hQc
          · refine ⟨n, ?_⟩
            show (if ("deaths" : String) = "deaths" then Cell.int n else hf "deaths")
              = Cell.int n
            rw [if_pos rfl]
        cases hd5 : astypeCol f4 "date" cellToDate with
        | error e =>
          rw [hd5, except_map_error] at h
          exact Except.noConfusion h
        | ok f5 =>
          simp only [hd5, except_map_ok] at h
          obtain ⟨hcols5, hrows5⟩ := astypeCol_canon_step f4 f5 "date" cellToDate
            (by decide) _ hd5 hP4
          injection h with hpair
          injection hpair with h1 h2
          refine ⟨h1.symm, ?_, ?_⟩
          · rw [← h2, hcols5, hcols4, hcols3]
            exact hf1cols
          · rw [← h2]
            intro r hr
            obtain ⟨hf, v, ⟨hQna, ⟨nc, hQc⟩, nd, hQd⟩, hcoe, hcanon⟩ := hrows5 r hr
            obtain ⟨d, hv⟩ := cellToDate_ok_not_na _ _ (hQna "date" (by decide)) hcoe
            subst hv
            refine ⟨fun x => if x = "date" then Cell.date d else hf x, hcanon,
              ?_, ?_, ?_, ?_⟩
            · refine ⟨nc, ?_⟩
              show (if ("cases" : String) = "date" then Cell.date d else hf "cases")
                = Cell.int nc
              rw [if_neg (by decide)]
              exact hQc
            · refine ⟨nd, ?_⟩
              show (if ("deaths" : String) = "date" then Cell.date d else hf "deaths")
                = Cell.int nd
              rw [if_neg (by decide)]
              exact hQd
            · refine ⟨d, ?_⟩
              show (if ("date" : String) = "date" then Cell.date d else hf "date")
                = Cell.date d
              rw [if_pos rfl]
            · show cellIsNA (if ("fips" : String) = "date" then Cell.date d
                else hf "fips") = false
              rw [if_neg (by decide)]
              exact hQna "fips" (by decide)

/-- A frame with exactly the four feature columns, canonical rows,
integer counts, date dates and non-missing fips is a fixed point of the
covid cleaner (and the caller again sees it unchanged). -/
theorem preprocess_covid19_df_fixed (g : RawFrame)
    (hcols : g.cols = covid_feature_list)
    (hrows : ∀ r ∈ g.rows, ∃ hf : String → Cell,
      r = covid_feature_list.map (fun x => (x, hf x))
      ∧ (∃ n, hf "cases" = Cell.int n)
      ∧ (∃ n, hf "deaths" = Cell.int n)
      ∧ (∃ d, hf "date" = Cell.date d)
      ∧ cellIsNA (hf "fips") = false) :
    preprocess_covid19_df g = Except.ok (g, g) := by
  have hnotna : ∀ r ∈ g.rows, ∀ x ∈ covid_feature_list,
      cellIsNA (getCellRow r x) = false := by
    intro r hr x hx
    obtain ⟨hf, hcanon, ⟨n1, hc1⟩, ⟨n2, hc2⟩, ⟨d3, hc3⟩, hc4⟩ := hrows r hr
    subst hcanon
    rw [getCellRow_map_names, if_pos hx]
    rcases (show x = "fips" ∨ x = "date" ∨ x = "cases" ∨ x = "deaths" by
        simpa [covid_feature_list] using hx) with rfl | rfl | rfl | rfl
    · exact hc4
    · rw [hc3]
      rfl
    · rw [hc1]
      rfl
    · rw [hc2]
      rfl
  have hsel : selectCols g covid_feature_list = Except.ok g := by
    refine selectCols_eq_self g _ ?_ ?_ hcols
    · intro n hn
      rw [hcols]
      exact hn
    · intro r hr
      obtain ⟨hf, hcanon, _⟩ := hrows r hr
      subst hcanon
      refine List.map_congr_left ?_
      intro x hx
      rw [getCellRow_map_names, if_pos hx]
  have hdrop : dropnaSubset g covid_feature_list = g := by
    refine dropnaSubset_eq_self g _ ?_
    intro r hr
    rw [List.all_eq_true]
    intro x hx
    rw [hnotna r hr x hx]
    rfl
  have hcast : ∀ c : String, c ∈ covid_feature_list →
      ∀ coe : Cell → Except String Cell,
      (∀ r ∈ g.rows, coe (getCellRow r c) = Except.ok (getCellRow r c)) →
      astypeCol g c coe = Except.ok g := by
    intro c hc coe hcoe
    refine astypeCol_eq_self g c coe (by rw [hcols]; exact hc) ?_
    intro r hr
    refine ⟨hcoe r hr, ?_⟩
    obtain ⟨hf, hcanon, _⟩ := hrows r hr
    subst hcanon
    rw [getCellRow_map_names, if_pos hc, setCellRow_map_names]
    refine List.map_congr_left ?_
    intro x hx
    by_cases hxc : x = c
    · subst hxc
      simp
    · simp [hxc]
  have hcases : astypeCol g "cases" cellToInt = Except.ok g := by
    refine hcast "cases" (by decide) cellToInt ?_
    intro r hr
    obtain ⟨hf, hcanon, ⟨n, hcell⟩, _⟩ := hrows r hr
    subst hcanon
    rw [getCellRow_map_names, if_pos (by decide), hcell]
    rfl
  have hdeaths : astypeCol g "deaths" cellToInt = Except.ok g := by
    refine hcast "deaths" (by decide) cellToInt ?_
    intro r hr
    obtain ⟨hf, hcanon, _, ⟨n, hcell⟩, _⟩ := hrows r hr
    subst hcanon
    rw [getCellRow_map_names, if_pos (by decide), hcell]
    rfl
  have hdate : astypeCol g "date" cellToDate = Except.ok g := by
    refine hcast "date" (by decide) cellToDate ?_
    intro r hr
    obtain ⟨hf, hcanon, _, _, ⟨d, hcell⟩, _⟩ := hrows r hr
    subst hcanon
    rw [getCellRow_map_names, if_pos (by decide), hcell]
    rfl
  unfold preprocess_covid19_df
  simp only [hsel, except_bind_ok, hdrop, hcases, hdeaths, hdate, except_map_ok]

/-- Shape of a successful run of the population cleaner: the caller's
frame has gained the in-place `fips` column, and the returned frame has
exactly the columns `fips` and `POPESTIMATE2019`. -/
theorem preprocess_population_df_ok_shape (df a out : RawFrame)
    (h : preprocess_population_df df = Except.ok (a, out)) :
    a = popWithFips df ∧ out.cols = pop_feature_list := by
  unfold preprocess_population_df at h
  cases hS : getColCells df "STATE" with
  | error e =>
    rw [hS, except_bind_error] at h
    exact Except.noConfusion h
  | ok sc =>
    simp only [hS, except_bind_ok] at h
    cases hC : getColCells df "COUNTY" with
    | error e =>
      rw [hC, except_bind_error] at h
      exact Except.noConfusion h
    | ok cc =>
      simp only [hC, except_bind_ok] at h
      cases hA : astypeCol (setColumn df "fips"
          (List.zipWith (fun a b => cellConcat (cellStrip a) (cellStrip b))
            sc cc)) "POPESTIMATE2019" cellToInt with
      | error e =>
        rw [hA, except_bind_error] at h
        exact Except.noConfusion h
      | ok f2 =>
        simp only [hA, except_bind_ok] at h
        cases hSel : selectCols f2 pop_feature_list with
        | error e =>
          rw [hSel, except_map_error] at h
          exact Except.noConfusion h
        | ok o =>
          simp only [hSel, except_map_ok] at h
          injection h with hpair
          injection hpair with h1 h2
          constructor
          · rw [← h1]
            obtain ⟨_, hsc⟩ := getColCells_ok df "STATE" sc hS
            obtain ⟨_, hcc⟩ := getColCells_ok df "COUNTY" cc hC
            rw [popWithFips, hsc, hcc]
          · rw [← h2]
            exact (selectCols_ok f2 pop_feature_list o hSel).1

/-- Applying the population cleaner to its own output always fails: the
output frame has no `STATE` column. -/
theorem preprocess_population_df_reapply (df a out : RawFrame)
    (h : preprocess_population_df df = Except.ok (a, out)) :
    preprocess_population_df out = Except.error "KeyError" := by
  obtain ⟨_, hcols⟩ := preprocess_population_df_ok_shape df a out h
  have hS : getColCells out "STATE" = Except.error "KeyError" := by
    refine getColCells_error out "STATE" ?_
    rw [hcols]
    decide
  unfold preprocess_population_df
  rw [hS, except_bind_error]

/-- C7 counterexample: cleaning is not idempotent as claimed — on the
demo population frame the cleaner succeeds, but applying it again to its
own output raises a KeyError (the output has no `STATE`/`COUNTY`
columns) instead of returning the same result. -/
theorem claim_C7_cleaning_idempotence_counterexample :
    preprocess_population_df demoPopFrame
      = Except.ok (demoPopFrameAfter, demoPopCleaned)
    ∧ preprocess_population_df demoPopCleaned = Except.error "KeyError" :=
  ⟨by decide, by decide⟩

/-- C7 amended: `preprocess_covid19_df` is idempotent — re-applying it to
the output of any successful run succeeds and returns that output
unchanged; `preprocess_population_df` is not — re-applying it to the
output of any successful run fails with a KeyError because the output
lacks the `STATE` and `COUNTY` columns. -/
theorem claim_C7_cleaning_idempotence_amended :
    (∀ df a out, preprocess_covid19_df df = Except.ok (a, out) →
      preprocess_covid19_df out = Except.ok (out, out))
    ∧ (∀ df a out, preprocess_population_df df = Except.ok (a, out) →
      preprocess_population_df out = Except.error "KeyError") := by
  constructor
  · intro df a out h
    obtain ⟨_, hcols, hrows⟩ := preprocess_covid19_df_ok_shape df a out h
    exact preprocess_covid19_df_fixed out hcols hrows
  · intro df a out h
    exact preprocess_population_df_reapply df a out h

/-- Witness for the amended C7 at the demo frames. -/
theorem claim_C7_cleaning_idempotence_amended_witness :
    preprocess_covid19_df demoCovidCleaned
      = Except.ok (demoCovidCleaned, demoCovidCleaned)
    ∧ preprocess_population_df demoPopCleaned = Except.error "KeyError" :=
  ⟨claim_C7_cleaning_idempotence_amended.1 demoCovidFrame demoCovidFrame
      demoCovidCleaned (by decide),
   claim_C7_cleaning_idempotence_amended.2 demoPopFrame demoPopFrameAfter
      demoPopCleaned (by decide)⟩

/-- C8 counterexample: `preprocess_population_df` mutates its input as
observed by the caller — after a successful run on the demo population
frame the argument has gained a `fips` column and is no longer equal to
the frame that was passed in. -/
theorem claim_C8_no_mutation_counterexample :
    preprocess_population_df demoPopFrame
      = Except.ok (demoPopFrameAfter, demoPopCleaned)
    ∧ demoPopFrameAfter ≠ demoPopFrame :=
  ⟨by decide, by decide⟩

/-- C8 amended: `preprocess_covid19_df` leaves its argument unchanged
(its first operation rebinds the local name to a column-selection copy),
but `preprocess_population_df` writes the computed `fips` column into the
caller's frame in place (source line 121) — the caller-visible argument
after a successful call is exactly the input with the `fips` column set.
`combine_data`, `calculate_stats_by_county` and `calculate_stats` are
embedded as pure functions because every pandas operation they perform
acts on fresh frames (`merge` returns a new frame, and the engine's
in-place writes all target the sorted copy made at its first line). -/
theorem claim_C8_no_mutation_amended :
    (∀ df a out, preprocess_covid19_df df = Except.ok (a, out) → a = df)
    ∧ (∀ df a out, preprocess_population_df df = Except.ok (a, out) →
      a = popWithFips df) := by
  constructor
  · intro df a out h
    exact (preprocess_covid19_df_ok_shape df a out h).1
  · intro df a out h
    exact (preprocess_population_df_ok_shape df a out h).1

/-- Witness for the amended C8 at the demo frames. -/
theorem claim_C8_no_mutation_amended_witness :
    demoCovidFrame = demoCovidFrame
    ∧ demoPopFrameAfter = popWithFips demoPopFrame :=
  ⟨claim_C8_no_mutation_amended.1 demoCovidFrame demoCovidFrame
      demoCovidCleaned (by decide),
   claim_C8_no_mutation_amended.2 demoPopFrame demoPopFrameAfter
      demoPopCleaned (by decide)⟩

end NYT
